import Mathlib

/-!
Verification of the `restore-k8s-unit-image` tool (Go, `src/main.go` and
`src/image/image.go`).

The development shallowly embeds the program's data model and operations:

* Go `map[string]string` values become association lists (`GoMap`) with
  Go-map semantics (insertion overwrites an existing key).
* Go string helpers (`strings.Split`, `strings.Contains`, `strings.TrimSpace`,
  `strings.Join`, `strings.Replace`, `strings.HasPrefix`) are implemented over
  the character lists underlying Lean strings.
* External collaborators (the `exec` command runner, `json.Unmarshal`, the
  HTTP client, the docker engine) are passed in as explicit values/oracles:
  the embedding is a function of their observable results, exactly the way the
  Go code branches on them.
* A Go `panic` (index out of range, nil-pointer dereference) is modelled as
  `Option.none` from the surrounding function.
-/

set_option autoImplicit false

/-- Does `pat` occur at the very start of `l`? (`strings.HasPrefix` on char lists.) -/
def leadsWith : List Char → List Char → Bool
  | [], _ => true
  | _ :: _, [] => false
  | a :: as, b :: bs => a == b && leadsWith as bs

/-- Does `pat` occur anywhere in `l`? Mirrors `strings.Contains`. -/
def occursIn (pat : List Char) : List Char → Bool
  | [] => pat.isEmpty
  | c :: rest => leadsWith pat (c :: rest) || occursIn pat rest

/-- Fuel-driven worker for `splitChars`: scan left to right, cutting at each
(non-overlapping) occurrence of `sep`. The recursion is structural on `fuel`
so that the kernel can evaluate concrete calls; `fuel ≥ l.length` keeps the
out-of-fuel case unreachable (and it coincides with the empty-list case). -/
def splitCharsF (fuel : Nat) (sep : List Char) (l : List Char) : List (List Char) :=
  match fuel, l with
  | 0, _ => [[]]
  | _ + 1, [] => [[]]
  | f + 1, c :: rest =>
    if leadsWith sep (c :: rest) then
      [] :: splitCharsF f sep (List.drop (sep.length - 1) rest)
    else
      match splitCharsF f sep rest with
      | h :: t => (c :: h) :: t
      | [] => [[c]]

/-- Go `strings.Split` on character lists. Always returns at least one piece. -/
def splitChars (sep : List Char) (l : List Char) : List (List Char) :=
  splitCharsF l.length sep l

/-- Go `strings.Split(s, sep)` (for the nonempty separators the program uses). -/
def strSplit (s sep : String) : List String :=
  (splitChars sep.data s.data).map String.mk

/-- Go `strings.Contains(s, sub)`. -/
def strContainsSub (s sub : String) : Bool :=
  occursIn sub.data s.data

/-- Go `strings.HasPrefix(s, p)`. -/
def hasPfx (s p : String) : Bool :=
  leadsWith p.data s.data

def isSpaceChar (c : Char) : Bool :=
  c == ' ' || c == '\t' || c == '\n' || c == '\r'

/-- Go `strings.TrimSpace` (restricted to the ASCII whitespace that can occur
in the constants file). -/
def strTrim (s : String) : String :=
  String.mk (((s.data.dropWhile isSpaceChar).reverse.dropWhile isSpaceChar).reverse)

/-- Go `strings.Replace(s, quote, empty, -1)`: delete every double-quote character. -/
def removeQuotes (s : String) : String :=
  String.mk (s.data.filter (fun c => c ≠ '"'))

/-- Go `strings.Join(parts, sep)`. -/
def strJoin (parts : List String) (sep : String) : String :=
  match parts with
  | [] => ""
  | h :: t => t.foldl (fun acc x => acc ++ sep ++ x) h

/-- A Go `map[string]string`, as an association list with unique keys
(maintained by `goUpsert`). Iteration order of a Go map is unspecified; the
claims proved below never depend on the order of entries. -/
def GoMap : Type := List (String × String)

instance : DecidableEq GoMap := by
  unfold GoMap
  infer_instance

instance : Append GoMap := ⟨fun a b => List.append a b⟩

/-- Go map assignment `m[k] = v`: overwrite the existing entry or append. -/
def goUpsert : GoMap → String → String → GoMap
  | [], k, v => [(k, v)]
  | (k', v') :: rest, k, v =>
    if k' = k then (k, v) :: rest else (k', v') :: goUpsert rest k v

/-- Go map read `m[k]` distinguishing presence (`some`) from absence (`none`). -/
def goLookup : GoMap → String → Option String
  | [], _ => none
  | (k', v') :: rest, k => if k' = k then some v' else goLookup rest k

/-- Go map read `m[k]` with the zero value `""` for a missing key. -/
def goLookupD (m : GoMap) (k : String) : String :=
  (goLookup m k).getD ""

/-- Go `delete(m, k)`. -/
def goErase : GoMap → String → GoMap
  | [], _ => []
  | (k', v') :: rest, k =>
    if k' = k then goErase rest k else (k', v') :: goErase rest k

theorem goLookup_upsert_self (m : GoMap) (k v : String) :
    goLookup (goUpsert m k v) k = some v := by
  induction m with
  | nil => simp [goUpsert, goLookup]
  | cons hd tl ih =>
    cases hd with
    | mk k' v' =>
      by_cases h : k' = k
      · simp [goUpsert, goLookup, h]
      · simp [goUpsert, goLookup, h, ih]

theorem goLookup_upsert_ne (m : GoMap) (k v k' : String) (h : k' ≠ k) :
    goLookup (goUpsert m k v) k' = goLookup m k' := by
  have h' : ¬ k = k' := fun hh => h hh.symm
  induction m with
  | nil => simp [goUpsert, goLookup, h']
  | cons hd tl ih =>
    cases hd with
    | mk a b =>
      by_cases ha : a = k
      · subst ha
        simp [goUpsert, goLookup, h']
      · simp only [goUpsert, if_neg ha, goLookup]
        by_cases ha' : a = k'
        · simp [ha']
        · simp [ha', ih]

theorem goLookup_erase_self (m : GoMap) (k : String) :
    goLookup (goErase m k) k = none := by
  induction m with
  | nil => simp [goErase, goLookup]
  | cons hd tl ih =>
    cases hd with
    | mk a b =>
      by_cases ha : a = k
      · simp [goErase, ha, ih]
      · simp [goErase, goLookup, ha, ih]

theorem goLookup_erase_ne (m : GoMap) (k k' : String) (h : k' ≠ k) :
    goLookup (goErase m k) k' = goLookup m k' := by
  have h' : ¬ k = k' := fun hh => h hh.symm
  induction m with
  | nil => simp [goErase]
  | cons hd tl ih =>
    cases hd with
    | mk a b =>
      by_cases ha : a = k
      · subst ha
        simp [goErase, goLookup, h', ih]
      · simp [goErase, goLookup, ha, ih]

/-- A parsed Kubernetes version as produced by
`k8s.io/apimachinery/pkg/util/version.ParseGeneric` on the 3-segment strings
that pass `formatKubeVersion` (a generic version keeps only its numeric
components; it carries no pre-release data). -/
structure KubeVersion where
  major : Nat
  minor : Nat
  patch : Nat
deriving DecidableEq

/-- Decimal parse of a nonempty all-digit segment, as accepted by the
`ParseGeneric` regular expression. -/
def strToNatQ (s : String) : Option Nat :=
  if !s.data.isEmpty && s.data.all Char.isDigit then
    some (s.data.foldl (fun acc c => acc * 10 + (c.toNat - '0'.toNat)) 0)
  else none

/-- The library function `version.ParseGeneric`, modelled for the `[v]MAJOR.MINOR.PATCH` inputs the
program can reach (everything else yields `none`; in Go a failed parse leaves a
nil `*Version` whose later dereference panics, which callers below model as
`none` as well). -/
def parseGeneric (s : String) : Option KubeVersion :=
  let core := if hasPfx s "v" then s.drop 1 else s
  match (strSplit core ".").map strToNatQ with
  | [some a, some b, some c] => some ⟨a, b, c⟩
  | _ => none

/-- The tag `"v" + ver.String()` as used throughout `getImageVersions`. -/
def k8sVersionV (v : KubeVersion) : String :=
  "v" ++ toString v.major ++ "." ++ toString v.minor ++ "." ++ toString v.patch

/-- Numeric-component comparison of `version.Version.compareInternal`.
When all components agree and one side is a non-semver (generic) version, the
pre-release tail is ignored and the versions compare equal. -/
def cmpComponents : List Nat → List Nat → Ordering
  | [], [] => Ordering.eq
  | [], _ :: _ => Ordering.lt
  | _ :: _, [] => Ordering.gt
  | x :: xs, y :: ys =>
    if x < y then Ordering.lt
    else if y < x then Ordering.gt
    else cmpComponents xs ys

/-- The test `ver.AtLeast(version.MustParseSemantic("v1.21.0-alpha.1"))` for a generic
`ver`: the numeric components are compared against `[1, 21, 0]` and the
`-alpha.1` pre-release tail is ignored because `ver` is not semver. -/
def coreDNSAtLeastNewVer (v : KubeVersion) : Bool :=
  cmpComponents [v.major, v.minor, v.patch] [1, 21, 0] != Ordering.lt

/-- The `coreDNSPath` selected in `getImageVersions` (image.go lines 219-224). -/
def coreDNSPath (v : KubeVersion) : String :=
  if coreDNSAtLeastNewVer v then "coredns/coredns" else "coredns"

/-- Go `formatKubeVersion` (image.go lines 94-103): panic (`none`) unless the
input splits into exactly 3 dot-separated pieces; prepend `"v"` if missing. -/
def formatKubeVersion (s : String) : Option String :=
  if (strSplit s ".").length ≠ 3 then none
  else if hasPfx s "v" then some s else some ("v" ++ s)

/-- Modelled from the spec's words for claim C10 (not from the code): a
normalized version should be `v` followed by exactly 3 dot-separated numeric
segments. Used only to compare the code's normalizer against the spec. -/
def specNumericNormalized (s : String) : Bool :=
  hasPfx s "v" &&
    (let segs := strSplit (s.drop 1) "."
     segs.length == 3 && segs.all (fun t => (strToNatQ t).isSome))

/-- The observable outcome of the single HTTP GET performed by `getFromURL`:
either the transport fails (`client.Do` error) or a response with a status
code and body arrives. -/
inductive HttpResult where
  | connError (msg : String)
  | response (status : Nat) (body : String)

/-- Go `getFromURL` (image.go lines 273-305): propagate a transport error, fail
on any non-200 status, otherwise return the body. The function performs its
one request and never retries. -/
def getFromURL (r : HttpResult) : Except String String :=
  match r with
  | HttpResult.connError msg => Except.error msg
  | HttpResult.response status body =>
    if status ≠ 200 then Except.error ("responded with status: " ++ toString status)
    else Except.ok body

/-- The six unconditional entries of the `images` map of `getImageVersions`
(image.go lines 199-207): the four Kubernetes components tagged with the k8s
version, plus empty `etcd` and `pause` entries. -/
def baseImages6 (v : KubeVersion) : GoMap :=
  goUpsert (goUpsert (goUpsert (goUpsert (goUpsert (goUpsert []
    "kube-apiserver" (k8sVersionV v)) "kube-controller-manager" (k8sVersionV v))
    "kube-scheduler" (k8sVersionV v)) "kube-proxy" (k8sVersionV v)) "etcd" "") "pause" ""

/-- Previous map plus `hyperkube` when major = 1 and minor < 17 (image.go lines 210-212). -/
def baseImagesH (v : KubeVersion) : GoMap :=
  if v.major = 1 ∧ v.minor < 17 then
    goUpsert (baseImages6 v) "hyperkube" (k8sVersionV v)
  else baseImages6 v

/-- Previous map plus `cloud-controller-manager` when major = 1 and minor < 16
(image.go lines 214-216): the complete map before the line-parsing loop. -/
def baseImages (v : KubeVersion) : GoMap :=
  if v.major = 1 ∧ v.minor < 16 then
    goUpsert (baseImagesH v) "cloud-controller-manager" (k8sVersionV v)
  else baseImagesH v

/-- The per-line value extraction of the parsing loop:
`strings.Replace(strings.Split(strings.TrimSpace(line), key)[1], quote, empty, -1)`.
`none` models the index-out-of-range panic of `Split(...)[1]` when the trimmed
line no longer contains `key`. -/
def extractAfter (line key : String) : Option String :=
  match strSplit (strTrim line) key with
  | _ :: x :: _ => some (removeQuotes x)
  | _ => none

/-- One iteration of the parsing loop of `getImageVersions`
(image.go lines 226-243). -/
def processLine (path : String) (m : GoMap) (line : String) : Option GoMap :=
  if strContainsSub line "CoreDNSVersion = " then
    match extractAfter line "CoreDNSVersion = " with
    | some val => some (goUpsert m path val)
    | none => none
  else if strContainsSub line "DefaultEtcdVersion = " then
    match extractAfter line "DefaultEtcdVersion = " with
    | some val => some (goUpsert m "etcd" val)
    | none => none
  else if strContainsSub line "PauseVersion = " then
    match extractAfter line "PauseVersion = " with
    | some val => some (goUpsert m "pause" val)
    | none => none
  else some m

/-- The whole parsing loop. -/
def processLines (path : String) : List String → GoMap → Option GoMap
  | [], m => some m
  | line :: rest, m =>
    match processLine path m line with
    | none => none
    | some m' => processLines path rest m'

/-- The `pause` default of `getImageVersions` (image.go lines 245-247):
if the parsed `pause` tag is still empty, hardcode `"3.1"`. -/
def pauseAdjust (m : GoMap) : GoMap :=
  if goLookupD m "pause" = "" then goUpsert m "pause" "3.1" else m

/-- The final verification of `getImageVersions` (image.go lines 250-253):
fail when the CoreDNS tag (under the selected path key) or the etcd tag is
still empty. The Go error message carries a `%#v` dump of the map, elided
here. -/
def validateImages (v : KubeVersion) (m2 : GoMap) : GoMap × Option String :=
  if goLookupD m2 (coreDNSPath v) = "" ∨ goLookupD m2 "etcd" = "" then
    (m2, some "at least one image version could not be set")
  else (m2, none)

/-- Body of `getImageVersions` after a successful fetch (image.go lines 198-256):
initial map, parsing loop over the lines, the `pause` default, and the final
validation. Returns the populated map together with the returned error
(`none` = nil); `Option.none` models a panic inside the loop. -/
def getImageVersionsCore (v : KubeVersion) (constants : String) :
    Option (GoMap × Option String) :=
  (processLines (coreDNSPath v) (strSplit constants "\n") (baseImages v)).map
    (fun m1 => validateImages v (pauseAdjust m1))

/-- Go `getImageVersions` (image.go lines 192-256). The fetch result is passed in
as the outcome of the `getFromURL` collaborator; a fetch error returns before
the (possibly nil) version pointer is ever used. The caller always passes a
fresh empty map, so the early-error branch returns the empty map unchanged. -/
def getImageVersions (vOpt : Option KubeVersion) (fetch : Except String String) :
    Option (GoMap × Option String) :=
  match fetch with
  | Except.error e => some ([], some e)
  | Except.ok constants =>
    match vOpt with
    | none => none
    | some v => getImageVersionsCore v constants

/-- The CoreDNS key normalization in `getSubUnitVersionsViaConstantsUrl`
(image.go lines 181-186): move a `coredns/coredns` entry to the bare key. -/
def renameCorednsKey (m : GoMap) : GoMap :=
  match goLookup m "coredns/coredns" with
  | some ver => goUpsert (goErase m "coredns/coredns") "coredns" ver
  | none => m

/-- Go `getSubUnitVersionsViaConstantsUrl` (image.go lines 173-189): parse the
(normalized) version generically, run `getImageVersions`, and on success store
the renamed map into `subUnitVersions`; on error the field keeps its previous
(empty) value and the error is returned. -/
def getSubUnitVersionsViaConstantsUrl (kubeVersion : String)
    (fetch : Except String String) : Option (GoMap × Option String) :=
  (getImageVersions (parseGeneric kubeVersion) fetch).map (fun r =>
    match r.2 with
    | some e => (([] : GoMap), some e)
    | none => (renameCorednsKey r.1, none))

/-- The JSON payload `kubeadm config images list -o=json` is unmarshalled into
(only the `Images` field is consumed by the program). -/
structure KubeadmResp where
  images : List String
deriving DecidableEq

/-- The argv of the `exec.Command` call in `getSubUnitVersionsViaKubeadm`
(image.go line 140). The Go source passes the literal flag
`--kubernetes-version=v1.23.0` and never references `kr.kubeVersion` here. -/
def kubeadmImagesListCmd (kubeVersion : String) : List String :=
  let _ := kubeVersion
  ["kubeadm", "config", "images", "list", "--kubernetes-version=v1.23.0", "-o=json"]

/-- Splitting of one image reference in the loop of
`getSubUnitVersionsViaKubeadm` (image.go lines 161-168): split on `/`, join
all but the last piece back as the prefix, split the last piece on `:` into
component and tag. `none` models the index-out-of-range panic of
`unitVersion[1]` when the reference has no colon. -/
def parseImageRef (image : String) : Option (String × String × String) :=
  let unitInfos := strSplit image "/"
  let pfxStr := strJoin unitInfos.dropLast "/"
  let unitAndVersion := unitInfos.getLastD ""
  match strSplit unitAndVersion ":" with
  | u :: verStr :: _ => some (u, pfxStr, verStr)
  | _ => none

/-- The loop of `getSubUnitVersionsViaKubeadm` over `kubeadmresp.Images`,
threading the `subUnitVersions` and `subUnitPrefixs` maps. -/
def parseKubeadmImages : List String → GoMap → GoMap → Option (GoMap × GoMap)
  | [], vs, ps => some (vs, ps)
  | image :: rest, vs, ps =>
    match parseImageRef image with
    | none => none
    | some (u, pfxStr, verStr) =>
      parseKubeadmImages rest (goUpsert vs u verStr) (goUpsert ps u pfxStr)

/-- Observable outcome of `getSubUnitVersionsViaKubeadm`: whether the
constants-URL fallback was invoked, the returned error, and the two maps the
method leaves in the `kubeReleaseInfo` struct. -/
structure KubeadmOutcome where
  usedFallback : Bool
  retErr : Option String
  subUnitVersions : GoMap
  subUnitPrefixs : GoMap
deriving DecidableEq

/-- Go `getSubUnitVersionsViaKubeadm` (image.go lines 136-170). Inputs: the
combined output and error of the `kubeadm` command, the `json.Unmarshal`
collaborator, and the fetch result consumed by the constants-URL fallback.
Control flow mirrors the source: on a command error the fallback runs (its
error, if any, is returned), after which — fallback or not — the original
command output is unmarshalled and, on success, the image list is parsed. -/
def getSubUnitVersionsViaKubeadm (kubeVersion out : String) (cmdErr : Option String)
    (um : String → Except String KubeadmResp) (fetch : Except String String) :
    Option KubeadmOutcome :=
  match cmdErr with
  | some _ =>
    match getSubUnitVersionsViaConstantsUrl kubeVersion fetch with
    | none => none
    | some (_, some eb) => some ⟨true, some eb, [], []⟩
    | some (bMap, none) =>
      match um out with
      | Except.error e => some ⟨true, some e, bMap, []⟩
      | Except.ok resp =>
        match parseKubeadmImages resp.images bMap [] with
        | none => none
        | some (vs, ps) => some ⟨true, none, vs, ps⟩
  | none =>
    match um out with
    | Except.error e => some ⟨false, some e, [], []⟩
    | Except.ok resp =>
      match parseKubeadmImages resp.images [] [] with
      | none => none
      | some (vs, ps) => some ⟨false, none, vs, ps⟩

/-- Go `getSubUnitVersions` (image.go lines 127-133): pick the strategy by
whether `kubeadm` is installed; the chosen method's return value is discarded,
so the error only survives as the third component here for observation. -/
def getSubUnitVersions (existKubeadm : Bool) (kubeVersion out : String)
    (cmdErr : Option String) (um : String → Except String KubeadmResp)
    (fetch : Except String String) : Option (GoMap × GoMap × Option String) :=
  if existKubeadm then
    match getSubUnitVersionsViaKubeadm kubeVersion out cmdErr um fetch with
    | none => none
    | some o => some (o.subUnitVersions, o.subUnitPrefixs, o.retErr)
  else
    match getSubUnitVersionsViaConstantsUrl kubeVersion fetch with
    | none => none
    | some (m, e) => some (m, [], e)

def remoteRegistryUrl : String := "wenchenhou"

def sourceRegistryUrl : String := "registry.cn-hangzhou.aliyuncs.com/google_containers"

/-- Go `buildAllImageInfo` (image.go lines 308-317): derive the mirror
(`remoteImageInfo`) and source (`sourceImageInfo`) references
`host/component:tag` from the resolved tags. -/
def buildAllImageInfo (subUnitVersions : GoMap) : GoMap × GoMap :=
  subUnitVersions.foldl (fun acc p =>
    (goUpsert acc.1 p.1 (remoteRegistryUrl ++ "/" ++ p.1 ++ ":" ++ p.2),
     goUpsert acc.2 p.1 (sourceRegistryUrl ++ "/" ++ p.1 ++ ":" ++ p.2))) ([], [])

/-- One docker-engine invocation issued by the synchronizer or the prober. -/
inductive DockerOp where
  | pull (ref : String)
  | tag (src dst : String)
  | push (ref : String)
deriving DecidableEq

/-- Go `checkDockerHub` (image.go lines 324-336): probe each mirror reference
with `docker image pull`; a command error marks the component missing. Returns
the list of probed references and the resulting `subUnitExist` map. -/
def checkDockerHub (remoteImageInfo : GoMap) (pullOk : String → Bool) :
    List String × List (String × Bool) :=
  (remoteImageInfo.map (fun p => p.2),
   remoteImageInfo.map (fun p => (p.1, pullOk p.2)))

/-- Go `imageManageProcess` (image.go lines 340-360) together with the bodies of
`pullFromSourceRegistry`, `retagImage` and `pushToRemoteRegistry`: for every
component marked missing, pull the source reference, tag it to the mirror
reference, and push the mirror reference. Each step's error (given by the
`execErr` oracle) is only inspected for logging; the next step runs anyway.
The returned list is the sequence of docker operations issued. -/
def imageManageProcess (subUnitExist : List (String × Bool))
    (sourceImageInfo remoteImageInfo : GoMap)
    (execErr : DockerOp → Option String) : List DockerOp :=
  match subUnitExist with
  | [] => []
  | (unitName, exist) :: rest =>
    if exist then imageManageProcess rest sourceImageInfo remoteImageInfo execErr
    else
      let pullOp := DockerOp.pull (goLookupD sourceImageInfo unitName)
      let pullErr := execErr pullOp
      let _ := pullErr
      let tagOp := DockerOp.tag (goLookupD sourceImageInfo unitName)
        (goLookupD remoteImageInfo unitName)
      let retagErr := execErr tagOp
      let _ := retagErr
      let pushOp := DockerOp.push (goLookupD remoteImageInfo unitName)
      let pushErr := execErr pushOp
      let _ := pushErr
      pullOp :: tagOp :: pushOp ::
        imageManageProcess rest sourceImageInfo remoteImageInfo execErr

/-- The message `Run` prints when `subUnitVersions` is empty (image.go line 87). -/
def runEmptyMsg : String := "subUnitVersions don\x27t contains any info, please check"

/-- Everything observable about one `NewKubeReleaseInfo` + `Run` execution. -/
structure RunTrace where
  kubeVersion : String
  subUnitVersions : GoMap
  subUnitPrefixs : GoMap
  discardedResolutionErr : Option String
  remoteImageInfo : GoMap
  sourceImageInfo : GoMap
  probePulls : List String
  subUnitExist : List (String × Bool)
  runMessage : Option String
  syncOps : List DockerOp
deriving DecidableEq

/-- Go `NewKubeReleaseInfo` followed by `Run` (image.go lines 60-91):
normalize the version (panic on bad format), require a working docker engine
(panic otherwise), probe for `kubeadm`, resolve the component versions
(the strategy's error is discarded by `getSubUnitVersions`), build both
reference maps, probe the mirror registry, and finally either stop with the
`runEmptyMsg` message (empty resolution) or run the synchronizer. -/
def pipelineRun (input : String) (dockerOk existKubeadm : Bool)
    (kubeadmOut : String) (kubeadmErr : Option String)
    (um : String → Except String KubeadmResp) (fetch : Except String String)
    (pullOk : String → Bool) (execErr : DockerOp → Option String) :
    Option RunTrace :=
  match formatKubeVersion input, dockerOk with
  | none, _ => none
  | some _, false => none
  | some kv, true =>
    match getSubUnitVersions existKubeadm kv kubeadmOut kubeadmErr um fetch with
    | none => none
    | some (vs, ps, dErr) =>
      some ⟨kv, vs, ps, dErr,
        (buildAllImageInfo vs).1, (buildAllImageInfo vs).2,
        (checkDockerHub (buildAllImageInfo vs).1 pullOk).1,
        (checkDockerHub (buildAllImageInfo vs).1 pullOk).2,
        (if vs = ([] : GoMap) then some runEmptyMsg else none),
        (if vs = ([] : GoMap) then []
         else imageManageProcess (checkDockerHub (buildAllImageInfo vs).1 pullOk).2
           (buildAllImageInfo vs).2 (buildAllImageInfo vs).1 execErr)⟩

theorem splitCharsF_ne_nil (fuel : Nat) (sep l : List Char) :
    splitCharsF fuel sep l ≠ [] := by
  induction fuel generalizing l with
  | zero => simp [splitCharsF]
  | succ f ih =>
    cases l with
    | nil => simp [splitCharsF]
    | cons c rest =>
      unfold splitCharsF
      split
      · simp
      · cases h : splitCharsF f sep rest with
        | nil => simp
        | cons a t => simp

theorem processLine_lookup_ne (path : String) (m0 m1 : GoMap) (line k : String)
    (hk1 : k ≠ path) (hk2 : k ≠ "etcd") (hk3 : k ≠ "pause")
    (h : processLine path m0 line = some m1) :
    goLookup m1 k = goLookup m0 k := by
  unfold processLine at h
  split at h
  · cases hex : extractAfter line "CoreDNSVersion = " with
    | none => rw [hex] at h; cases h
    | some val =>
      rw [hex] at h
      cases h
      exact goLookup_upsert_ne _ _ _ _ hk1
  · split at h
    · cases hex : extractAfter line "DefaultEtcdVersion = " with
      | none => rw [hex] at h; cases h
      | some val =>
        rw [hex] at h
        cases h
        exact goLookup_upsert_ne _ _ _ _ hk2
    · split at h
      · cases hex : extractAfter line "PauseVersion = " with
        | none => rw [hex] at h; cases h
        | some val =>
          rw [hex] at h
          cases h
          exact goLookup_upsert_ne _ _ _ _ hk3
      · cases h
        rfl

theorem processLines_lookup_ne (path : String) (lines : List String)
    (m0 m : GoMap) (k : String)
    (hk1 : k ≠ path) (hk2 : k ≠ "etcd") (hk3 : k ≠ "pause")
    (h : processLines path lines m0 = some m) :
    goLookup m k = goLookup m0 k := by
  induction lines generalizing m0 with
  | nil =>
    simp only [processLines, Option.some.injEq] at h
    rw [h]
  | cons line rest ih =>
    unfold processLines at h
    cases hpl : processLine path m0 line with
    | none => rw [hpl] at h; cases h
    | some m1 =>
      rw [hpl] at h
      rw [ih m1 h]
      exact processLine_lookup_ne path m0 m1 line k hk1 hk2 hk3 hpl

theorem processLine_lookup_pause (path : String) (m0 m1 : GoMap) (line : String)
    (hpath : path ≠ "pause")
    (hline : strContainsSub line "PauseVersion = " = false)
    (h : processLine path m0 line = some m1) :
    goLookup m1 "pause" = goLookup m0 "pause" := by
  unfold processLine at h
  split at h
  · cases hex : extractAfter line "CoreDNSVersion = " with
    | none => rw [hex] at h; cases h
    | some val =>
      rw [hex] at h
      cases h
      exact goLookup_upsert_ne _ _ _ _ (fun hh => hpath hh.symm)
  · split at h
    · cases hex : extractAfter line "DefaultEtcdVersion = " with
      | none => rw [hex] at h; cases h
      | some val =>
        rw [hex] at h
        cases h
        exact goLookup_upsert_ne _ _ _ _ (by decide)
    · split at h
      · simp_all
      · cases h
        rfl

theorem processLines_lookup_pause (path : String) (lines : List String)
    (m0 m : GoMap)
    (hpath : path ≠ "pause")
    (hlines : ∀ line ∈ lines, strContainsSub line "PauseVersion = " = false)
    (h : processLines path lines m0 = some m) :
    goLookup m "pause" = goLookup m0 "pause" := by
  induction lines generalizing m0 with
  | nil =>
    simp only [processLines, Option.some.injEq] at h
    rw [h]
  | cons line rest ih =>
    unfold processLines at h
    cases hpl : processLine path m0 line with
    | none => rw [hpl] at h; cases h
    | some m1 =>
      rw [hpl] at h
      rw [ih m1 (fun l hl => hlines l (List.mem_cons_of_mem _ hl)) h]
      exact processLine_lookup_pause path m0 m1 line hpath
        (hlines line (List.mem_cons_self _ _)) hpl

theorem coreDNSPath_cases (v : KubeVersion) :
    coreDNSPath v = "coredns" ∨ coreDNSPath v = "coredns/coredns" := by
  unfold coreDNSPath
  split
  · right; rfl
  · left; rfl

theorem baseImages6_lookup_other (v : KubeVersion) (k : String)
    (h1 : k ≠ "kube-apiserver") (h2 : k ≠ "kube-controller-manager")
    (h3 : k ≠ "kube-scheduler") (h4 : k ≠ "kube-proxy")
    (h5 : k ≠ "etcd") (h6 : k ≠ "pause") :
    goLookup (baseImages6 v) k = none := by
  unfold baseImages6
  rw [goLookup_upsert_ne _ _ _ _ h6, goLookup_upsert_ne _ _ _ _ h5,
    goLookup_upsert_ne _ _ _ _ h4, goLookup_upsert_ne _ _ _ _ h3,
    goLookup_upsert_ne _ _ _ _ h2, goLookup_upsert_ne _ _ _ _ h1]
  rfl

theorem baseImagesH_lookup_other (v : KubeVersion) (k : String)
    (h : k ≠ "hyperkube") :
    goLookup (baseImagesH v) k = goLookup (baseImages6 v) k := by
  unfold baseImagesH
  split
  · rw [goLookup_upsert_ne _ _ _ _ h]
  · rfl

theorem baseImages_lookup_other (v : KubeVersion) (k : String)
    (h : k ≠ "cloud-controller-manager") :
    goLookup (baseImages v) k = goLookup (baseImagesH v) k := by
  unfold baseImages
  split
  · rw [goLookup_upsert_ne _ _ _ _ h]
  · rfl

theorem baseImages_lookup_hyperkube (v : KubeVersion) :
    goLookup (baseImages v) "hyperkube" =
      if v.major = 1 ∧ v.minor < 17 then some (k8sVersionV v) else none := by
  rw [baseImages_lookup_other v _ (by decide)]
  unfold baseImagesH
  split_ifs with h17
  · rw [goLookup_upsert_self]
  · rw [baseImages6_lookup_other] <;> decide

theorem baseImages_lookup_ccm (v : KubeVersion) :
    goLookup (baseImages v) "cloud-controller-manager" =
      if v.major = 1 ∧ v.minor < 16 then some (k8sVersionV v) else none := by
  unfold baseImages
  split_ifs with h16
  · rw [goLookup_upsert_self]
  · rw [baseImagesH_lookup_other v _ (by decide),
      baseImages6_lookup_other] <;> decide

theorem baseImages_lookup_coredns (v : KubeVersion) :
    goLookup (baseImages v) "coredns" = none ∧
      goLookup (baseImages v) "coredns/coredns" = none := by
  constructor <;>
    rw [baseImages_lookup_other v _ (by decide),
      baseImagesH_lookup_other v _ (by decide),
      baseImages6_lookup_other] <;> decide

theorem baseImages_lookup_pause (v : KubeVersion) :
    goLookup (baseImages v) "pause" = some "" := by
  rw [baseImages_lookup_other v _ (by decide),
    baseImagesH_lookup_other v _ (by decide)]
  unfold baseImages6
  rw [goLookup_upsert_self]

theorem baseImages_lookup_etcd (v : KubeVersion) :
    goLookup (baseImages v) "etcd" = some "" := by
  rw [baseImages_lookup_other v _ (by decide),
    baseImagesH_lookup_other v _ (by decide)]
  unfold baseImages6
  rw [goLookup_upsert_ne _ _ _ _ (by decide), goLookup_upsert_self]

theorem pauseAdjust_lookup_ne (m : GoMap) (k : String) (h : k ≠ "pause") :
    goLookup (pauseAdjust m) k = goLookup m k := by
  unfold pauseAdjust
  split
  · rw [goLookup_upsert_ne _ _ _ _ h]
  · rfl

/-- Structural inversion of `getImageVersionsCore`: the returned map comes
from the parsing loop followed by the pause default, and the returned error
is exactly the validation verdict on that map. -/
theorem getImageVersionsCore_inv (v : KubeVersion) (text : String)
    (m : GoMap) (e : Option String)
    (h : getImageVersionsCore v text = some (m, e)) :
    ∃ m1, processLines (coreDNSPath v) (strSplit text "\n") (baseImages v) = some m1 ∧
      m = pauseAdjust m1 ∧
      (e = none ↔ (goLookupD m (coreDNSPath v) ≠ "" ∧ goLookupD m "etcd" ≠ "")) := by
  unfold getImageVersionsCore at h
  rw [Option.map_eq_some'] at h
  obtain ⟨m1, hpl, hval⟩ := h
  unfold validateImages at hval
  by_cases hcond : goLookupD (pauseAdjust m1) (coreDNSPath v) = "" ∨
      goLookupD (pauseAdjust m1) "etcd" = ""
  · rw [if_pos hcond] at hval
    injection hval with hm he
    subst hm
    subst he
    refine ⟨m1, hpl, rfl, ?_⟩
    constructor
    · intro he2
      exact Option.noConfusion he2
    · intro hne
      rcases hcond with hc | hc
      · exact absurd hc hne.1
      · exact absurd hc hne.2
  · rw [if_neg hcond] at hval
    injection hval with hm he
    subst hm
    subst he
    push_neg at hcond
    exact ⟨m1, hpl, rfl, by simp [hcond.1, hcond.2]⟩

theorem getImageVersionsCore_lookup_stable (v : KubeVersion) (text : String)
    (m : GoMap) (e : Option String) (k : String)
    (h : getImageVersionsCore v text = some (m, e))
    (hk1 : k ≠ coreDNSPath v) (hk2 : k ≠ "etcd") (hk3 : k ≠ "pause") :
    goLookup m k = goLookup (baseImages v) k := by
  obtain ⟨m1, hpl, hm, -⟩ := getImageVersionsCore_inv v text m e h
  rw [hm, pauseAdjust_lookup_ne _ _ hk3]
  exact processLines_lookup_ne _ _ _ _ _ hk1 hk2 hk3 hpl

theorem renameCorednsKey_lookup_other (m : GoMap) (k : String)
    (h1 : k ≠ "coredns") (h2 : k ≠ "coredns/coredns") :
    goLookup (renameCorednsKey m) k = goLookup m k := by
  unfold renameCorednsKey
  cases hl : goLookup m "coredns/coredns" with
  | none => rfl
  | some t =>
    rw [goLookup_upsert_ne _ _ _ _ h1, goLookup_erase_ne _ _ _ h2]

theorem ne_coreDNSPath_of_ne_both (v : KubeVersion) (k : String)
    (h1 : k ≠ "coredns") (h2 : k ≠ "coredns/coredns") : k ≠ coreDNSPath v := by
  rcases coreDNSPath_cases v with h | h <;> rw [h]
  · exact h1
  · exact h2

theorem imageManageProcess_eq_bind (subUnitExist : List (String × Bool))
    (src dst : GoMap) (execErr : DockerOp → Option String) :
    imageManageProcess subUnitExist src dst execErr =
      subUnitExist.flatMap (fun p =>
        if p.2 then []
        else [DockerOp.pull (goLookupD src p.1),
              DockerOp.tag (goLookupD src p.1) (goLookupD dst p.1),
              DockerOp.push (goLookupD dst p.1)]) := by
  induction subUnitExist with
  | nil => rfl
  | cons hd tl ih =>
    cases hd with
    | mk n ex =>
      cases ex <;> simp [imageManageProcess, ih, List.flatMap_cons]

/-- C4: for every component whose `subUnitExist` entry is `false`, the
synchronizer issues exactly one pull of the source reference, one tag from the
source to the mirror reference and one push of the mirror reference, in that
order; a `true` entry issues nothing; and the issued operations do not depend
on the per-step error oracle, i.e. every later step runs whether or not an
earlier one failed. -/
theorem c4_sync_three_steps (subUnitExist : List (String × Bool))
    (src dst : GoMap) (execErr : DockerOp → Option String) :
    imageManageProcess subUnitExist src dst execErr =
      subUnitExist.flatMap (fun p =>
        if p.2 then []
        else [DockerOp.pull (goLookupD src p.1),
              DockerOp.tag (goLookupD src p.1) (goLookupD dst p.1),
              DockerOp.push (goLookupD dst p.1)]) ∧
    ∀ g : DockerOp → Option String,
      imageManageProcess subUnitExist src dst execErr =
        imageManageProcess subUnitExist src dst g := by
  refine ⟨imageManageProcess_eq_bind _ _ _ _, fun g => ?_⟩
  rw [imageManageProcess_eq_bind _ _ _ execErr, imageManageProcess_eq_bind _ _ _ g]

/-- C8: a transport failure of the constants fetch — a connection error or a
non-200 status — comes back from `getFromURL` as an error and propagates
through `getImageVersions` as a resolution failure (the embedding consumes a
single `HttpResult`, so no retry can occur). -/
theorem c8_transport_failure (vOpt : Option KubeVersion) (st : Nat) (b e : String)
    (hst : st ≠ 200) :
    getFromURL (HttpResult.connError e) = Except.error e ∧
    getFromURL (HttpResult.response st b) =
      Except.error ("responded with status: " ++ toString st) ∧
    getImageVersions vOpt (getFromURL (HttpResult.connError e)) =
      some ([], some e) ∧
    getImageVersions vOpt (getFromURL (HttpResult.response st b)) =
      some ([], some ("responded with status: " ++ toString st)) := by
  have hresp : getFromURL (HttpResult.response st b) =
      Except.error ("responded with status: " ++ toString st) := by
    simp only [getFromURL]
    rw [if_pos hst]
  refine ⟨rfl, hresp, rfl, ?_⟩
  rw [hresp]
  rfl

theorem c8_transport_failure_witness :
    getFromURL (HttpResult.connError "dial tcp: i/o timeout") =
      Except.error "dial tcp: i/o timeout" ∧
    getFromURL (HttpResult.response 404 "not found") =
      Except.error ("responded with status: " ++ toString 404) ∧
    getImageVersions (some ⟨1, 25, 1⟩)
        (getFromURL (HttpResult.connError "dial tcp: i/o timeout")) =
      some ([], some "dial tcp: i/o timeout") ∧
    getImageVersions (some ⟨1, 25, 1⟩)
        (getFromURL (HttpResult.response 404 "not found")) =
      some ([], some ("responded with status: " ++ toString 404)) :=
  c8_transport_failure (some ⟨1, 25, 1⟩) 404 "not found" "dial tcp: i/o timeout"
    (by decide)

/-- C7: for every constants text Strategy B reaches (fetch succeeded and the
parsing loop did not panic), the returned error is nil exactly when both the
CoreDNS tag (under the selected path key) and the etcd tag are non-empty in
the resulting map. -/
theorem c7_validation (v : KubeVersion) (text : String) (m : GoMap)
    (e : Option String) (h : getImageVersionsCore v text = some (m, e)) :
    e = none ↔ (goLookupD m (coreDNSPath v) ≠ "" ∧ goLookupD m "etcd" ≠ "") := by
  obtain ⟨m1, hpl, hm, hiff⟩ := getImageVersionsCore_inv v text m e h
  exact hiff

def c7text : String :=
  "CoreDNSVersion = \"1.7.0\"\nDefaultEtcdVersion = \"3.4.13-0\""

def c7map : GoMap := ((getImageVersionsCore ⟨1, 20, 0⟩ c7text).getD ([], none)).1

theorem c7_validation_witness :
    goLookupD c7map (coreDNSPath ⟨1, 20, 0⟩) ≠ "" ∧ goLookupD c7map "etcd" ≠ "" :=
  (c7_validation ⟨1, 20, 0⟩ c7text c7map none (by decide)).mp rfl

/-- C6: when no line of the constants text contains a pause-version constant,
Strategy B resolves the `pause` tag to exactly `"3.1"`. -/
theorem c6_pause_default (v : KubeVersion) (text : String) (m : GoMap)
    (e : Option String) (h : getImageVersionsCore v text = some (m, e))
    (hno : ∀ line ∈ strSplit text "\n",
      strContainsSub line "PauseVersion = " = false) :
    goLookup m "pause" = some "3.1" := by
  obtain ⟨m1, hpl, hm, -⟩ := getImageVersionsCore_inv v text m e h
  have hpath : coreDNSPath v ≠ "pause" := by
    rcases coreDNSPath_cases v with h1 | h1 <;> rw [h1] <;> decide
  have h1 : goLookup m1 "pause" = goLookup (baseImages v) "pause" :=
    processLines_lookup_pause _ _ _ _ hpath hno hpl
  have hlook : goLookupD m1 "pause" = "" := by
    unfold goLookupD
    rw [h1, baseImages_lookup_pause]
    rfl
  rw [hm]
  unfold pauseAdjust
  rw [if_pos hlook, goLookup_upsert_self]

def c6map : GoMap := ((getImageVersionsCore ⟨1, 23, 0⟩ "").getD ([], none)).1

def c6err : Option String := ((getImageVersionsCore ⟨1, 23, 0⟩ "").getD ([], none)).2

theorem c6_pause_default_witness : goLookup c6map "pause" = some "3.1" :=
  c6_pause_default ⟨1, 23, 0⟩ "" c6map c6err (by decide) (by decide)

theorem coreDNSPath_of_atLeast (v : KubeVersion)
    (h : coreDNSAtLeastNewVer v = true) : coreDNSPath v = "coredns/coredns" := by
  unfold coreDNSPath
  rw [h]
  rfl

theorem coreDNSPath_of_not_atLeast (v : KubeVersion)
    (h : coreDNSAtLeastNewVer v = false) : coreDNSPath v = "coredns" := by
  unfold coreDNSPath
  rw [h]
  rfl

theorem coreDNSAtLeastNewVer_old (v : KubeVersion) (hmaj : v.major = 1)
    (hmin : v.minor < 21) : coreDNSAtLeastNewVer v = false := by
  unfold coreDNSAtLeastNewVer
  have h1 : cmpComponents [v.major, v.minor, v.patch] [1, 21, 0] = Ordering.lt := by
    rw [hmaj]
    simp [cmpComponents, hmin]
  rw [h1]
  rfl

/-- C3: the final tag map of Strategy B contains `hyperkube` (tagged with the
Kubernetes version) exactly when major = 1 and minor < 17, and
`cloud-controller-manager` (same tag) exactly when major = 1 and minor < 16. -/
theorem c3_conditional_components (s : String) (v : KubeVersion) (text : String)
    (final : GoMap) (hs : parseGeneric s = some v)
    (hok : getSubUnitVersionsViaConstantsUrl s (Except.ok text) = some (final, none)) :
    goLookup final "hyperkube" =
      (if v.major = 1 ∧ v.minor < 17 then some (k8sVersionV v) else none) ∧
    goLookup final "cloud-controller-manager" =
      (if v.major = 1 ∧ v.minor < 16 then some (k8sVersionV v) else none) := by
  unfold getSubUnitVersionsViaConstantsUrl at hok
  rw [hs] at hok
  have hok2 : (getImageVersionsCore v text).map (fun r =>
      match r.2 with
      | some e => (([] : GoMap), some e)
      | none => (renameCorednsKey r.1, none)) = some (final, none) := hok
  rw [Option.map_eq_some'] at hok2
  obtain ⟨⟨m, e⟩, hcore, hmap⟩ := hok2
  cases e with
  | some e2 =>
    injection hmap with hm2 he2
    exact absurd he2 (by simp)
  | none =>
    injection hmap with hm2 he2
    subst hm2
    constructor
    · rw [renameCorednsKey_lookup_other m _ (by decide) (by decide),
        getImageVersionsCore_lookup_stable v text m none "hyperkube" hcore
          (ne_coreDNSPath_of_ne_both v _ (by decide) (by decide))
          (by decide) (by decide),
        baseImages_lookup_hyperkube]
    · rw [renameCorednsKey_lookup_other m _ (by decide) (by decide),
        getImageVersionsCore_lookup_stable v text m none
          "cloud-controller-manager" hcore
          (ne_coreDNSPath_of_ne_both v _ (by decide) (by decide))
          (by decide) (by decide),
        baseImages_lookup_ccm]

def c3text : String :=
  "CoreDNSVersion = \"1.3.1\"\nDefaultEtcdVersion = \"3.3.10\"\nPauseVersion = \"3.1\""

def c3final14 : GoMap :=
  ((getSubUnitVersionsViaConstantsUrl "v1.14.0" (Except.ok c3text)).getD ([], none)).1

def c3final231 : GoMap :=
  ((getSubUnitVersionsViaConstantsUrl "v1.23.1" (Except.ok c3text)).getD ([], none)).1

theorem c3_conditional_components_witness :
    goLookup c3final14 "hyperkube" = some "v1.14.0" ∧
    goLookup c3final14 "cloud-controller-manager" = some "v1.14.0" ∧
    goLookup c3final231 "hyperkube" = none ∧
    goLookup c3final231 "cloud-controller-manager" = none := by
  have h14 := c3_conditional_components "v1.14.0" ⟨1, 14, 0⟩ c3text c3final14
    (by decide) (by decide)
  have h231 := c3_conditional_components "v1.23.1" ⟨1, 23, 1⟩ c3text c3final231
    (by decide) (by decide)
  refine ⟨?_, ?_, ?_, ?_⟩
  · rw [h14.1, if_pos (by decide)]
    rfl
  · rw [h14.2, if_pos (by decide)]
    rfl
  · rw [h231.1, if_neg (by decide)]
  · rw [h231.2, if_neg (by decide)]

/-- C2: below `v1.21.0-alpha.1` (in particular whenever major = 1 and
minor < 21) Strategy B never creates a `coredns/coredns` entry — the parsed
CoreDNS tag lives under `coredns`; from the threshold on it never creates a
bare `coredns` entry — the tag lives under `coredns/coredns`; and the final
`subUnitVersions` map always carries the tag under the bare key `coredns` and
never under `coredns/coredns`. -/
theorem c2_coredns_key (v : KubeVersion) (text : String) (m : GoMap)
    (e : Option String) (h : getImageVersionsCore v text = some (m, e)) :
    (v.major = 1 → v.minor < 21 → goLookup m "coredns/coredns" = none) ∧
    (coreDNSAtLeastNewVer v = true → goLookup m "coredns" = none) ∧
    (∀ s final, parseGeneric s = some v →
      getSubUnitVersionsViaConstantsUrl s (Except.ok text) = some (final, none) →
      goLookup final "coredns/coredns" = none ∧
      goLookup final "coredns" = goLookup m (coreDNSPath v)) := by
  have hnew : coreDNSAtLeastNewVer v = true → goLookup m "coredns" = none := by
    intro hA
    rw [getImageVersionsCore_lookup_stable v text m e "coredns" h
        (by rw [coreDNSPath_of_atLeast v hA]; decide) (by decide) (by decide)]
    exact (baseImages_lookup_coredns v).1
  have hold : coreDNSAtLeastNewVer v = false →
      goLookup m "coredns/coredns" = none := by
    intro hA
    rw [getImageVersionsCore_lookup_stable v text m e "coredns/coredns" h
        (by rw [coreDNSPath_of_not_atLeast v hA]; decide) (by decide) (by decide)]
    exact (baseImages_lookup_coredns v).2
  refine ⟨?_, hnew, ?_⟩
  · intro hmaj hmin
    exact hold (coreDNSAtLeastNewVer_old v hmaj hmin)
  · intro s final hs hok
    unfold getSubUnitVersionsViaConstantsUrl at hok
    rw [hs] at hok
    have hok2 : (getImageVersionsCore v text).map (fun r =>
        match r.2 with
        | some e2 => (([] : GoMap), some e2)
        | none => (renameCorednsKey r.1, none)) = some (final, none) := hok
    rw [Option.map_eq_some'] at hok2
    obtain ⟨⟨m2, e2⟩, hcore, hmap⟩ := hok2
    rw [h] at hcore
    injection hcore with hcore2
    injection hcore2 with hm2 he2
    subst hm2
    subst he2
    cases e with
    | some e3 =>
      injection hmap with hm3 he3
      exact absurd he3 (by simp)
    | none =>
      injection hmap with hm3 he3
      subst hm3
      constructor
      · unfold renameCorednsKey
        cases hl : goLookup m "coredns/coredns" with
        | none => exact hl
        | some t =>
          rw [goLookup_upsert_ne _ _ _ _ (by decide), goLookup_erase_self]
      · cases hA : coreDNSAtLeastNewVer v with
        | true =>
          rw [coreDNSPath_of_atLeast v hA]
          unfold renameCorednsKey
          cases hl : goLookup m "coredns/coredns" with
          | none =>
            dsimp only
            exact hnew hA
          | some t =>
            dsimp only
            rw [goLookup_upsert_self]
        | false =>
          rw [coreDNSPath_of_not_atLeast v hA]
          unfold renameCorednsKey
          rw [hold hA]

def c2text : String :=
  "CoreDNSVersion = \"v1.8.0\"\nDefaultEtcdVersion = \"3.4.13-0\""

def c2map20 : GoMap := ((getImageVersionsCore ⟨1, 20, 0⟩ c2text).getD ([], none)).1

def c2map22 : GoMap := ((getImageVersionsCore ⟨1, 22, 0⟩ c2text).getD ([], none)).1

def c2final20 : GoMap :=
  ((getSubUnitVersionsViaConstantsUrl "v1.20.0" (Except.ok c2text)).getD ([], none)).1

theorem c2_coredns_key_witness :
    goLookup c2map20 "coredns/coredns" = none ∧
    goLookup c2map22 "coredns" = none ∧
    goLookup c2final20 "coredns/coredns" = none ∧
    goLookup c2final20 "coredns" = goLookup c2map20 (coreDNSPath ⟨1, 20, 0⟩) := by
  have h20 := c2_coredns_key ⟨1, 20, 0⟩ c2text c2map20 none (by decide)
  have h22 := c2_coredns_key ⟨1, 22, 0⟩ c2text c2map22 none (by decide)
  have hfin := h20.2.2 "v1.20.0" c2final20 (by decide) (by decide)
  exact ⟨h20.1 rfl (by decide), h22.2.1 (by decide), hfin.1, hfin.2⟩

/-- C1: evaluation of the kubeadm invocation at the program's own target
version. The spec says Strategy A asks kubeadm for the image list *of the
target version*, but the source hardcodes `--kubernetes-version=v1.23.0`
(image.go line 140) and never references `kr.kubeVersion` in that command, so
for the target `v1.25.1` (the version `main.go` passes) the tool is asked for
v1.23.0's images. The reference-splitting half of the claim is the
`parseImageRef` definition used by `getSubUnitVersionsViaKubeadm`. -/
theorem c1_kubeadm_version_flag :
    kubeadmImagesListCmd "v1.25.1" =
      ["kubeadm", "config", "images", "list", "--kubernetes-version=v1.23.0",
       "-o=json"] ∧
    "--kubernetes-version=v1.25.1" ∉ kubeadmImagesListCmd "v1.25.1" ∧
    (∀ s : String, kubeadmImagesListCmd s = kubeadmImagesListCmd "v1.23.0") ∧
    parseImageRef "k8s.gcr.io/coredns/coredns:v1.8.6" =
      some ("coredns", "k8s.gcr.io/coredns", "v1.8.6") := by
  exact ⟨rfl, by decide, fun s => rfl, by decide⟩

/-- C5 counterexample: the kubeadm command *succeeds* (`cmdErr = none`) but
its output is malformed (the unmarshal collaborator rejects it). The claim
says this case falls back to Strategy B; the code instead returns the
unmarshal error with the fallback never invoked (`usedFallback = false`),
even though Strategy B's inputs here would have succeeded. -/
theorem c5_no_fallback_on_malformed_output :
    getSubUnitVersionsViaKubeadm "v1.25.1" "plain text, not JSON" none
      (fun _ => Except.error "invalid character p looking for beginning of value")
      (Except.ok "CoreDNSVersion = \"v1.9.3\"\nDefaultEtcdVersion = \"3.5.4-0\"") =
      some ⟨false,
        some "invalid character p looking for beginning of value", [], []⟩ := by
  rfl

/-- C5 amended: the fallback to Strategy B happens when the kubeadm command
returns an error (non-zero exit) — and, via `getSubUnitVersions`, when the
tool is not installed — with Strategy B's error returned when it also fails;
but when the command succeeds with malformed output, the resolver returns the
unmarshal error without invoking Strategy B (and the caller discards the
returned error either way). -/
theorem c5_fallback_amended (kubeVersion out e : String)
    (um : String → Except String KubeadmResp) (fetch : Except String String) :
    (∀ eb, getSubUnitVersionsViaConstantsUrl kubeVersion fetch = some ([], some eb) →
      getSubUnitVersionsViaKubeadm kubeVersion out (some e) um fetch =
        some ⟨true, some eb, [], []⟩) ∧
    (∀ e2, um out = Except.error e2 →
      getSubUnitVersionsViaKubeadm kubeVersion out none um fetch =
        some ⟨false, some e2, [], []⟩) ∧
    (∀ bm eb2, getSubUnitVersionsViaConstantsUrl kubeVersion fetch = some (bm, eb2) →
      getSubUnitVersions false kubeVersion out (some e) um fetch =
        some (bm, [], eb2)) := by
  refine ⟨?_, ?_, ?_⟩
  · intro eb hB
    unfold getSubUnitVersionsViaKubeadm
    rw [hB]
  · intro e2 hum
    unfold getSubUnitVersionsViaKubeadm
    rw [hum]
  · intro bm eb2 hB
    unfold getSubUnitVersions
    rw [if_neg (by decide), hB]

theorem c5_fallback_amended_witness :
    getSubUnitVersionsViaKubeadm "v1.25.1" "oops" (some "exit status 1")
      (fun _ => Except.error "invalid json") (Except.error "boom") =
      some ⟨true, some "boom", [], []⟩ ∧
    getSubUnitVersionsViaKubeadm "v1.25.1" "oops" none
      (fun _ => Except.error "invalid json") (Except.error "boom") =
      some ⟨false, some "invalid json", [], []⟩ ∧
    getSubUnitVersions false "v1.25.1" "oops" (some "exit status 1")
      (fun _ => Except.error "invalid json") (Except.error "boom") =
      some ([], [], some "boom") := by
  have h := c5_fallback_amended "v1.25.1" "oops" "exit status 1"
    (fun _ => Except.error "invalid json") (Except.error "boom")
  exact ⟨h.1 "boom" (by decide), h.2.1 "invalid json" rfl,
    h.2.2 [] (some "boom") (by decide)⟩

/-- C9 counterexample: both resolution inputs fail (kubeadm absent, constants
fetch refused), yet the run does not stop at the Resolver with the underlying
error surfaced: `NewKubeReleaseInfo` discards the resolution error
(`discardedResolutionErr`), still executes the Locator and Prober stages (on
empty maps), and `Run` prints only the fixed generic message, which does not
contain the underlying error text. -/
theorem c9_error_not_surfaced :
    pipelineRun "v1.25.1" true false "" none (fun _ => Except.error "unused")
      (Except.error "connection refused") (fun _ => true) (fun _ => none) =
      some ⟨"v1.25.1", [], [], some "connection refused", [], [], [], [],
        some runEmptyMsg, []⟩ ∧
    strContainsSub runEmptyMsg "connection refused" = false := by
  exact ⟨by decide, by decide⟩

/-- C9 amended: when resolution leaves `subUnitVersions` empty (both
strategies failed), the Locator and Prober still run but over empty maps — so
no image references are built or probed — and `Run` stops before the
Synchronizer with the generic `runEmptyMsg`; the strategies' error is
discarded rather than surfaced. -/
theorem c9_empty_resolution_behavior (input : String)
    (dockerOk existKubeadm : Bool) (out : String) (cmdErr : Option String)
    (um : String → Except String KubeadmResp) (fetch : Except String String)
    (pullOk : String → Bool) (execErr : DockerOp → Option String)
    (tr : RunTrace)
    (h : pipelineRun input dockerOk existKubeadm out cmdErr um fetch pullOk
        execErr = some tr)
    (hempty : tr.subUnitVersions = []) :
    tr.remoteImageInfo = [] ∧ tr.sourceImageInfo = [] ∧ tr.probePulls = [] ∧
    tr.subUnitExist = [] ∧ tr.syncOps = [] ∧ tr.runMessage = some runEmptyMsg := by
  unfold pipelineRun at h
  cases hfmt : formatKubeVersion input with
  | none => rw [hfmt] at h; cases h
  | some kv =>
    rw [hfmt] at h
    cases dockerOk with
    | false => cases h
    | true =>
      dsimp only at h
      cases hsub : getSubUnitVersions existKubeadm kv out cmdErr um fetch with
      | none => rw [hsub] at h; cases h
      | some trip =>
        obtain ⟨vs, ps, dErr⟩ := trip
        rw [hsub] at h
        injection h with h2
        subst h2
        have hvs : vs = [] := hempty
        subst hvs
        refine ⟨rfl, rfl, rfl, rfl, ?_, ?_⟩
        · show (if ([] : GoMap) = ([] : GoMap) then ([] : List DockerOp)
            else imageManageProcess
              (checkDockerHub (buildAllImageInfo []).1 pullOk).2
              (buildAllImageInfo []).2 (buildAllImageInfo []).1 execErr) = []
          rw [if_pos rfl]
        · show (if ([] : GoMap) = ([] : GoMap) then some runEmptyMsg else none) =
            some runEmptyMsg
          rw [if_pos rfl]

theorem c9_empty_resolution_behavior_witness :
    (⟨"v1.25.1", [], [], some "connection refused", [], [], [], [],
        some runEmptyMsg, []⟩ : RunTrace).remoteImageInfo = [] ∧
    (⟨"v1.25.1", [], [], some "connection refused", [], [], [], [],
        some runEmptyMsg, []⟩ : RunTrace).sourceImageInfo = [] ∧
    (⟨"v1.25.1", [], [], some "connection refused", [], [], [], [],
        some runEmptyMsg, []⟩ : RunTrace).probePulls = [] ∧
    (⟨"v1.25.1", [], [], some "connection refused", [], [], [], [],
        some runEmptyMsg, []⟩ : RunTrace).subUnitExist = [] ∧
    (⟨"v1.25.1", [], [], some "connection refused", [], [], [], [],
        some runEmptyMsg, []⟩ : RunTrace).syncOps = [] ∧
    (⟨"v1.25.1", [], [], some "connection refused", [], [], [], [],
        some runEmptyMsg, []⟩ : RunTrace).runMessage = some runEmptyMsg :=
  c9_empty_resolution_behavior "v1.25.1" true false "" none
    (fun _ => Except.error "unused") (Except.error "connection refused")
    (fun _ => true) (fun _ => none)
    ⟨"v1.25.1", [], [], some "connection refused", [], [], [], [],
      some runEmptyMsg, []⟩ (by decide) rfl

/-- Sanity check that the spec-side shape predicate accepts the canonical
normalized form. -/
theorem specNumericNormalized_canonical : specNumericNormalized "v1.23.0" = true := by
  decide

/-- C10 counterexample: `formatKubeVersion` only counts dot-separated pieces;
it accepts `"a.b.c"` and normalizes it to `"va.b.c"`, whose segments are not
numeric — refuting the claim that every accepted input normalizes to 3
*numeric* segments. -/
theorem c10_nonnumeric_accepted :
    formatKubeVersion "a.b.c" = some "va.b.c" ∧
    specNumericNormalized "va.b.c" = false := by
  exact ⟨by decide, by decide⟩

theorem data_v_append (s : String) : ("v" ++ s).data = 'v' :: s.data := by
  cases s with
  | mk d => rfl

theorem hasPfx_v_append (s : String) : hasPfx ("v" ++ s) "v" = true := by
  unfold hasPfx
  rw [data_v_append]
  rfl

theorem strSplit_vpfx_length (s : String) :
    (strSplit ("v" ++ s) ".").length = (strSplit s ".").length := by
  unfold strSplit
  rw [data_v_append]
  simp only [List.length_map]
  show (splitCharsF ('v' :: s.data).length ['.'] ('v' :: s.data)).length =
    (splitCharsF s.data.length ['.'] s.data).length
  rw [List.length_cons]
  show (splitCharsF (s.data.length + 1) ['.'] ('v' :: s.data)).length = _
  rw [splitCharsF]
  have hlw : leadsWith ['.'] ('v' :: s.data) = false := rfl
  rw [hlw]
  cases hsp : splitCharsF s.data.length ['.'] s.data with
  | nil => exact absurd hsp (splitCharsF_ne_nil _ _ _)
  | cons hh tt => simp

/-- C10 amended: every input accepted by `formatKubeVersion` normalizes to a
string that starts with `v` and splits into exactly 3 dot-separated segments —
but the segments need not be numeric (see the counterexample). -/
theorem c10_normalized_shape (s t : String) (h : formatKubeVersion s = some t) :
    hasPfx t "v" = true ∧ (strSplit t ".").length = 3 := by
  unfold formatKubeVersion at h
  by_cases h3 : (strSplit s ".").length ≠ 3
  · rw [if_pos h3] at h
    cases h
  · rw [if_neg h3] at h
    push_neg at h3
    by_cases hv : hasPfx s "v" = true
    · rw [if_pos hv] at h
      injection h with ht
      subst ht
      exact ⟨hv, h3⟩
    · rw [if_neg hv] at h
      injection h with ht
      subst ht
      exact ⟨hasPfx_v_append s, by rw [strSplit_vpfx_length, h3]⟩

theorem c10_normalized_shape_witness :
    hasPfx "v1.23.0" "v" = true ∧ (strSplit "v1.23.0" ".").length = 3 :=
  c10_normalized_shape "1.23.0" "v1.23.0" (by decide)
